import Mathlib

/-!
Shallow embedding of the food-service supply catalog backend
(`src/backend/src/routes/products.ts` and `src/backend/src/routes/variants.ts`).

The relational store (better-sqlite3) is modelled as lists of rows kept in
insertion (rowid) order; `datetime('now')` is modelled as a `Nat` timestamp
passed to each operation.  Each Express handler becomes a pure function from
a request and a store to a typed result paired with the successor store; an
error result is always paired with the unchanged store, mirroring the
early-return structure of the handlers.
-/

namespace Catalog

/-- A row of the `categories` table. -/
structure Category where
  id : Nat
  name : String
deriving Repr, DecidableEq

/-- A row of the `products` table.  `deleted_at = none` models SQL NULL
(the product is live); timestamps are abstract `Nat` instants. -/
structure Product where
  id : Nat
  name : String
  description : Option String
  category_id : Option Nat
  status : String
  deleted_at : Option Nat
  created_at : Nat
  updated_at : Nat
deriving Repr, DecidableEq

/-- A row of the `variants` table. -/
structure Variant where
  id : Nat
  product_id : Nat
  sku : String
  name : String
  price_cents : Int
  inventory_count : Int
  created_at : Nat
  updated_at : Nat
deriving Repr, DecidableEq

/-- The persistent store: the three tables in rowid order plus the
auto-increment counters that supply `lastInsertRowid`. -/
structure DB where
  categories : List Category
  products : List Product
  variants : List Variant
  nextProductId : Nat
  nextVariantId : Nat
deriving Repr, DecidableEq

/-- The typed failures a route can answer with: HTTP 400, 404 and 409
respectively, each carrying the response body's error message. -/
inductive ApiError where
  | invalidInput (msg : String)
  | notFound (msg : String)
  | conflict (msg : String)
deriving Repr, DecidableEq

/-- A JSON field of a request body: absent (`undefined`), explicit `null`,
or a properly typed value. -/
inductive JField (α : Type) where
  | undef
  | null
  | val (a : α)
deriving Repr, DecidableEq

/-- The JavaScript expression `x ?? null` followed by binding the result as a
SQL parameter: both `undefined` and `null` become SQL NULL (`none`). -/
def jval {α : Type} : JField α → Option α
  | .val a => some a
  | _ => none

/-- One element of the `variants` array of a create-product body.  `none`
models an absent (or `null`) member, which the handler's loose checks
(`!v.sku`, `v.price_cents != null`) treat alike. -/
structure VariantReq where
  sku : Option String
  name : Option String
  price_cents : Option Int
  inventory_count : Option Int
deriving Repr, DecidableEq

/-- A create-product request body. -/
structure CreateReq where
  name : Option String
  description : Option String
  category_id : Option Nat
  status : Option String
  variants : Option (List VariantReq)
deriving Repr, DecidableEq

/-- A `PUT /api/products/:id` body; each field distinguishes absent from
explicit null because the handler funnels both through `?? null`. -/
structure UpdateProductReq where
  name : JField String
  description : JField String
  category_id : JField Nat
  status : JField String
deriving Repr, DecidableEq

/-- A `PUT /api/variants/:id` body. -/
structure UpdateVariantReq where
  name : JField String
  sku : JField String
  price_cents : JField Int
  inventory_count : JField Int
deriving Repr, DecidableEq

/-- JavaScript's `String.prototype.trim`: strip whitespace from both ends.
(Defined over the character list so that it is kernel-computable.) -/
def jsTrim (s : String) : String :=
  ⟨((s.data.dropWhile Char.isWhitespace).reverse.dropWhile Char.isWhitespace).reverse⟩

/-- Query `SELECT id FROM categories WHERE id = ?`. -/
def findCategory (db : DB) (cid : Nat) : Option Category :=
  db.categories.find? (fun c => c.id = cid)

/-- Query `SELECT id FROM variants WHERE sku = ?`. -/
def findVariantBySku (db : DB) (s : String) : Option Variant :=
  db.variants.find? (fun v => v.sku = s)

/-- Substring containment on character lists: `hay LIKE '%needle%'`. -/
def containsSub (hay needle : List Char) : Bool :=
  match hay with
  | [] => needle.isEmpty
  | _ :: t => needle.isPrefixOf hay || containsSub t needle

/-- Condition `(p.name LIKE ? OR p.description LIKE ?)` with `%term%` patterns; a NULL
description never matches (SQL three-valued logic collapses to false here). -/
def matchesSearch (s : String) (p : Product) : Bool :=
  containsSub p.name.toList s.toList ||
  (match p.description with
   | some d => containsSub d.toList s.toList
   | none => false)

/-- Stable insert for ascending sort on `created_at` (`ORDER BY created_at
ASC`; better-sqlite3 breaks ties by rowid, i.e. stably). -/
def insertAsc (v : Variant) : List Variant → List Variant
  | [] => [v]
  | w :: ws => if v.created_at ≤ w.created_at then v :: w :: ws else w :: insertAsc v ws

/-- Clause `ORDER BY created_at ASC` as a stable sort. -/
def sortByCreatedAsc : List Variant → List Variant
  | [] => []
  | v :: vs => insertAsc v (sortByCreatedAsc vs)

/-- Stable insert for descending sort on `created_at`. -/
def insertDesc (p : Product) : List Product → List Product
  | [] => [p]
  | q :: qs => if q.created_at ≤ p.created_at then p :: q :: qs else q :: insertDesc p qs

/-- Clause `ORDER BY p.created_at DESC` as a stable sort. -/
def sortByCreatedDesc : List Product → List Product
  | [] => []
  | p :: ps => insertDesc p (sortByCreatedDesc ps)

/-- A product joined with its category name (`LEFT JOIN categories`). -/
structure ProductRow where
  product : Product
  category_name : Option String
deriving Repr, DecidableEq

/-- A product joined with its category name and full variant list. -/
structure ProductDetail where
  product : Product
  category_name : Option String
  variants : List Variant
deriving Repr, DecidableEq

/-- One row of the listing query: product, category name and the variant
aggregates. -/
structure ProductSummary where
  product : Product
  category_name : Option String
  variant_count : Nat
  min_price_cents : Option Int
  max_price_cents : Option Int
  total_inventory : Int
deriving Repr, DecidableEq

/-- Aggregate `MIN(v.price_cents)` over the joined variants (NULL on empty join). -/
def minAgg : List Int → Option Int
  | [] => none
  | x :: xs =>
    match minAgg xs with
    | none => some x
    | some m => some (min x m)

/-- Aggregate `MAX(v.price_cents)` over the joined variants (NULL on empty join). -/
def maxAgg : List Int → Option Int
  | [] => none
  | x :: xs =>
    match maxAgg xs with
    | none => some x
    | some m => some (max x m)

/-- The category name a LEFT JOIN resolves for a product. -/
def joinedCategoryName (db : DB) (p : Product) : Option String :=
  p.category_id.bind (fun cid => (findCategory db cid).map (fun c => c.name))

/-- The aggregate row the listing query produces for one product. -/
def summarize (db : DB) (p : Product) : ProductSummary :=
  let vj := db.variants.filter (fun v => v.product_id = p.id)
  { product := p
    category_name := joinedCategoryName db p
    variant_count := vj.length
    min_price_cents := minAgg (vj.map (fun v => v.price_cents))
    max_price_cents := maxAgg (vj.map (fun v => v.price_cents))
    total_inventory := (vj.map (fun v => v.inventory_count)).sum }

/-- Route `GET /api/products`: the WHERE clause is seeded with
`p.deleted_at IS NULL`; a truthy `search` (non-empty string) and a present
`category_id` each push one further ANDed condition. -/
def listProducts (search : Option String) (category_id : Option Nat) (db : DB) :
    List ProductSummary :=
  let rows := db.products.filter (fun p =>
    p.deleted_at.isNone
    && (match search with
        | some s => if s = "" then true else matchesSearch s p
        | none => true)
    && (match category_id with
        | some c => p.category_id = some c
        | none => true))
  (sortByCreatedDesc rows).map (summarize db)

/-- The two SELECTs of `GET /api/products/:id` (no soft-delete filter):
the product joined with its category name, then its variants ordered by
`created_at ASC`. -/
def selectProductDetail (id : Nat) (db : DB) : Option ProductDetail :=
  match db.products.find? (fun p => p.id = id) with
  | none => none
  | some p =>
    some { product := p
           category_name := joinedCategoryName db p
           variants := sortByCreatedAsc (db.variants.filter (fun v => v.product_id = id)) }

/-- Route `GET /api/products/:id`. -/
def getProduct (id : Nat) (db : DB) : Except ApiError ProductDetail :=
  match selectProductDetail id db with
  | none => .error (.notFound "Product not found")
  | some d => .ok d

/-- The statuses accepted by the create handler. -/
def validStatuses : List String := ["active", "draft", "archived"]

/-- The trimmed SKU of a create-request variant (`v.sku.trim()`; only
evaluated after validation has ensured the field is a present string). -/
def trimSku (v : VariantReq) : String := jsTrim (v.sku.getD "")

/-- The per-variant validation loop of `POST /api/products`: field checks,
then the in-request duplicate check against `skusInRequest` (`seen`), then
the database conflict check — in that order, for each index in turn. -/
def checkVariants (db : DB) : List VariantReq → Nat → List String → Option ApiError
  | [], _, _ => none
  | v :: rest, i, seen =>
    if jsTrim (v.sku.getD "") = "" then
      some (.invalidInput ("Variant at index " ++ toString i ++ " is missing a SKU"))
    else if jsTrim (v.name.getD "") = "" then
      some (.invalidInput ("Variant at index " ++ toString i ++ " is missing a name"))
    else if (match v.price_cents with | some p => decide (p < 0) | none => false) then
      some (.invalidInput ("Variant at index " ++ toString i ++
        " has an invalid price (must be >= 0)"))
    else if (match v.inventory_count with | some q => decide (q < 0) | none => false) then
      some (.invalidInput ("Variant at index " ++ toString i ++
        " has an invalid inventory count (must be >= 0)"))
    else if seen.contains (trimSku v) then
      some (.invalidInput ("Duplicate SKU \"" ++ trimSku v ++ "\" within request"))
    else
      match findVariantBySku db (trimSku v) with
      | some _ => some (.conflict ("SKU \"" ++ trimSku v ++ "\" already exists"))
      | none => checkVariants db rest (i + 1) (trimSku v :: seen)

/-- Every early-return check of `POST /api/products` that precedes the
transaction, in source order: name, variants shape, status enum, category
existence, then the per-variant loop. -/
def validateCreate (req : CreateReq) (db : DB) : Option ApiError :=
  if jsTrim (req.name.getD "") = "" then
    some (.invalidInput "Product name is required")
  else
    match req.variants with
    | none => some (.invalidInput "At least one variant is required")
    | some vs =>
      if vs.isEmpty then some (.invalidInput "At least one variant is required")
      else if ¬ validStatuses.contains (req.status.getD "active") then
        some (.invalidInput "Invalid status. Must be one of: active, draft, archived")
      else
        match req.category_id with
        | some cid =>
          if (findCategory db cid).isNone then some (.invalidInput "Category not found")
          else checkVariants db vs 0 []
        | none => checkVariants db vs 0 []

/-- The variant INSERTs of the create transaction, in request order; each
row takes the next rowid and the trimmed/defaulted request fields. -/
def insertVariants (pid now : Nat) : List VariantReq → DB → DB
  | [], d => d
  | v :: rest, d =>
    insertVariants pid now rest
      { d with
        variants := d.variants ++
          [{ id := d.nextVariantId
             product_id := pid
             sku := trimSku v
             name := jsTrim (v.name.getD "")
             price_cents := v.price_cents.getD 0
             inventory_count := v.inventory_count.getD 0
             created_at := now
             updated_at := now }]
        nextVariantId := d.nextVariantId + 1 }

/-- Route `POST /api/products`: validation (every check before any write), then
the atomic product+variants insert, then the re-select that builds the 201
response body. -/
def createProduct (req : CreateReq) (now : Nat) (db : DB) :
    Except ApiError ProductDetail × DB :=
  match validateCreate req db with
  | some e => (.error e, db)
  | none =>
    let pid := db.nextProductId
    let dbP : DB :=
      { db with
        products := db.products ++
          [{ id := pid
             name := jsTrim (req.name.getD "")
             description := req.description
             category_id := req.category_id
             status := req.status.getD "active"
             deleted_at := none
             created_at := now
             updated_at := now }]
        nextProductId := pid + 1 }
    let dbV := insertVariants pid now (req.variants.getD []) dbP
    match selectProductDetail pid dbV with
    | some d => (.ok d, dbV)
    | none => (.error (.notFound "Product not found"), dbV)

/-- Route `PUT /api/products/:id`: existence check, then the COALESCE update
(absent and null fields keep the prior column value, `updated_at` always
refreshed), then the re-select of the joined row. -/
def updateProduct (id : Nat) (req : UpdateProductReq) (now : Nat) (db : DB) :
    Except ApiError ProductRow × DB :=
  match db.products.find? (fun p => p.id = id) with
  | none => (.error (.notFound "Product not found"), db)
  | some _ =>
    let db' : DB :=
      { db with
        products := db.products.map (fun p =>
          if p.id = id then
            { p with
              name := (jval req.name).getD p.name
              description := match jval req.description with
                             | some d => some d
                             | none => p.description
              category_id := match jval req.category_id with
                             | some c => some c
                             | none => p.category_id
              status := (jval req.status).getD p.status
              updated_at := now }
          else p) }
    match db'.products.find? (fun p => p.id = id) with
    | some p => (.ok { product := p, category_name := joinedCategoryName db' p }, db')
    | none => (.error (.notFound "Product not found"), db')

/-- Route `DELETE /api/products/:id`: the lookup has no soft-delete filter; the
matching row gets `deleted_at` and `updated_at` set to now. -/
def deleteProduct (id : Nat) (now : Nat) (db : DB) : Except ApiError Unit × DB :=
  match db.products.find? (fun p => p.id = id) with
  | none => (.error (.notFound "Product not found"), db)
  | some _ =>
    (.ok (),
     { db with
       products := db.products.map (fun p =>
         if p.id = id then { p with deleted_at := some now, updated_at := now } else p) })

/-- Whether a provided (non-`undefined`) string field fails the
`typeof x !== "string" || x.trim().length === 0` check; an explicit null
fails the typeof test. -/
def badStringField : JField String → Bool
  | .undef => false
  | .null => true
  | .val s => jsTrim s = ""

/-- Whether a provided numeric field fails the
`typeof x !== "number" || x < 0` check. -/
def badNumberField : JField Int → Bool
  | .undef => false
  | .null => true
  | .val n => n < 0

/-- Route `PUT /api/variants/:id`: existence, per-field validation of supplied
fields only, self-SKU-aware conflict check, empty-update guard, then the
dynamically built UPDATE touching only supplied columns. -/
def updateVariant (id : Nat) (req : UpdateVariantReq) (now : Nat) (db : DB) :
    Except ApiError Variant × DB :=
  match db.variants.find? (fun v => v.id = id) with
  | none => (.error (.notFound "Variant not found"), db)
  | some existing =>
    if badStringField req.name then
      (.error (.invalidInput "Variant name must be a non-empty string"), db)
    else if badStringField req.sku then
      (.error (.invalidInput "SKU must be a non-empty string"), db)
    else if badNumberField req.price_cents then
      (.error (.invalidInput "price_cents must be a number >= 0"), db)
    else if badNumberField req.inventory_count then
      (.error (.invalidInput "inventory_count must be a number >= 0"), db)
    else if (match req.sku with
             | .val s =>
               decide (jsTrim s ≠ existing.sku) &&
               (db.variants.find? (fun (v : Variant) =>
                 decide (v.sku = jsTrim s) && decide (v.id ≠ id))).isSome
             | _ => false) then
      (.error (.conflict ("SKU \"" ++ (match req.sku with
                                       | .val s => jsTrim s
                                       | _ => "") ++ "\" already exists")), db)
    else if req.name == .undef && req.sku == .undef &&
            req.price_cents == .undef && req.inventory_count == .undef then
      (.error (.invalidInput "No fields provided to update"), db)
    else
      let db' : DB :=
        { db with
          variants := db.variants.map (fun (v : Variant) =>
            if v.id = id then
              { v with
                name := (match req.name with | .val s => jsTrim s | _ => v.name)
                sku := (match req.sku with | .val s => jsTrim s | _ => v.sku)
                price_cents := (match req.price_cents with | .val n => n | _ => v.price_cents)
                inventory_count := (match req.inventory_count with
                                    | .val n => n
                                    | _ => v.inventory_count)
                updated_at := now }
            else v) }
      match db'.variants.find? (fun v => v.id = id) with
      | some v => (.ok v, db')
      | none => (.error (.notFound "Variant not found"), db')

/-- Route `DELETE /api/variants/:id`: existence check, then the sibling COUNT
guard, then the physical DELETE. -/
def deleteVariant (id : Nat) (db : DB) : Except ApiError Unit × DB :=
  match db.variants.find? (fun v => v.id = id) with
  | none => (.error (.notFound "Variant not found"), db)
  | some variant =>
    let siblingCount :=
      (db.variants.filter (fun v => v.product_id = variant.product_id)).length
    if siblingCount ≤ 1 then
      (.error (.invalidInput "Cannot delete the last variant of a product"), db)
    else
      (.ok (), { db with variants := db.variants.filter (fun v => ¬ v.id = id) })

/-! ### Helper functions for stating and proving properties -/

/-- Bool-valued form of the per-variant field checks of the create handler:
sku and name present with non-empty trim, price and inventory (when present)
non-negative. -/
def fieldValid (v : VariantReq) : Bool :=
  !(jsTrim (v.sku.getD "") == "") && !(jsTrim (v.name.getD "") == "") &&
  decide (0 ≤ v.price_cents.getD 0) && decide (0 ≤ v.inventory_count.getD 0)

/-- The rows the create transaction's variant INSERTs produce, given the
first fresh rowid. -/
def mkRows (pid now : Nat) : List VariantReq → Nat → List Variant
  | [], _ => []
  | v :: rest, n =>
    { id := n
      product_id := pid
      sku := trimSku v
      name := jsTrim (v.name.getD "")
      price_cents := v.price_cents.getD 0
      inventory_count := v.inventory_count.getD 0
      created_at := now
      updated_at := now } :: mkRows pid now rest (n + 1)

/-! ### Generic lemmas about the embedding's list operations -/

theorem find?_map_if {α : Type} (key : α → Nat) (id : Nat) (f : α → α)
    (hf : ∀ x, key (f x) = key x) :
    ∀ l : List α,
      (l.map (fun x => if key x = id then f x else x)).find? (fun x => key x = id) =
        (l.find? (fun x => key x = id)).map f
  | [] => rfl
  | x :: t => by
    by_cases h : key x = id
    · simp [List.find?, h, hf]
    · simp [List.find?, h, find?_map_if key id f hf t]

theorem find?_append_of_none {α : Type} {p : α → Bool} {l₁ l₂ : List α}
    (h : l₁.find? p = none) : (l₁ ++ l₂).find? p = l₂.find? p := by
  simp [List.find?_append, h]

theorem insertAsc_of_le (v : Variant) (l : List Variant)
    (h : ∀ w ∈ l, v.created_at ≤ w.created_at) : insertAsc v l = v :: l := by
  cases l with
  | nil => rfl
  | cons w ws => simp [insertAsc, h w (by simp)]

theorem sortByCreatedAsc_const (c : Nat) :
    ∀ l : List Variant, (∀ w ∈ l, w.created_at = c) → sortByCreatedAsc l = l
  | [], _ => rfl
  | v :: vs, h => by
    have hvs : sortByCreatedAsc vs = vs := sortByCreatedAsc_const c vs (by
      intro w hw; exact h w (by simp [hw]))
    simp only [sortByCreatedAsc, hvs]
    exact insertAsc_of_le v vs (by
      intro w hw
      rw [h v (by simp), h w (by simp [hw])])

theorem mem_insertDesc {p q : Product} {l : List Product} :
    p ∈ insertDesc q l ↔ p = q ∨ p ∈ l := by
  induction l with
  | nil => simp [insertDesc]
  | cons x xs ih =>
    simp only [insertDesc]
    by_cases h : x.created_at ≤ q.created_at
    · simp [h]
    · simp [h, ih]; tauto

theorem mem_sortByCreatedDesc {p : Product} {l : List Product} :
    p ∈ sortByCreatedDesc l ↔ p ∈ l := by
  induction l with
  | nil => simp [sortByCreatedDesc]
  | cons x xs ih => simp [sortByCreatedDesc, mem_insertDesc, ih]

theorem insertVariants_spec (pid now : Nat) :
    ∀ (vs : List VariantReq) (d : DB),
      insertVariants pid now vs d =
        { d with
          variants := d.variants ++ mkRows pid now vs d.nextVariantId
          nextVariantId := d.nextVariantId + vs.length }
  | [], d => by simp [insertVariants, mkRows]
  | v :: rest, d => by
    rw [insertVariants, insertVariants_spec pid now rest]
    simp [mkRows]
    omega

theorem mkRows_product_id (pid now : Nat) :
    ∀ (vs : List VariantReq) (n : Nat) (w : Variant),
      w ∈ mkRows pid now vs n → w.product_id = pid
  | [], _, w, h => by simp [mkRows] at h
  | v :: rest, n, w, h => by
    simp only [mkRows, List.mem_cons] at h
    rcases h with h | h
    · rw [h]
    · exact mkRows_product_id pid now rest (n + 1) w h

theorem mkRows_created_at (pid now : Nat) :
    ∀ (vs : List VariantReq) (n : Nat) (w : Variant),
      w ∈ mkRows pid now vs n → w.created_at = now
  | [], _, w, h => by simp [mkRows] at h
  | v :: rest, n, w, h => by
    simp only [mkRows, List.mem_cons] at h
    rcases h with h | h
    · rw [h]
    · exact mkRows_created_at pid now rest (n + 1) w h

theorem mkRows_proj (pid now : Nat) :
    ∀ (vs : List VariantReq) (n : Nat),
      (mkRows pid now vs n).map (fun w => (w.sku, w.name, w.price_cents, w.inventory_count)) =
        vs.map (fun u => (jsTrim (u.sku.getD ""), jsTrim (u.name.getD ""),
          u.price_cents.getD 0, u.inventory_count.getD 0))
  | [], _ => rfl
  | v :: rest, n => by
    simp [mkRows, mkRows_proj pid now rest (n + 1), trimSku]

theorem mkRows_length (pid now : Nat) :
    ∀ (vs : List VariantReq) (n : Nat), (mkRows pid now vs n).length = vs.length
  | [], _ => rfl
  | v :: rest, n => by simp [mkRows, mkRows_length pid now rest (n + 1)]

/-! ### Lemmas about the create-product validation pipeline -/

theorem fieldValid_iff (v : VariantReq) :
    fieldValid v = true ↔
      jsTrim (v.sku.getD "") ≠ "" ∧ jsTrim (v.name.getD "") ≠ "" ∧
      0 ≤ v.price_cents.getD 0 ∧ 0 ≤ v.inventory_count.getD 0 := by
  simp [fieldValid]
  tauto

theorem negGuard_eq (o : Option Int) :
    (match o with | some p => decide (p < 0) | none => false) = decide (o.getD 0 < 0) := by
  cases o <;> simp

/-- Under field-valid variants with globally distinct trimmed SKUs, the
per-variant loop reports the database conflict of the first SKU that is
already persisted. -/
theorem checkVariants_conflict (db : DB) :
    ∀ (vs : List VariantReq) (i : Nat) (seen : List String),
      (∀ v ∈ vs, fieldValid v = true) →
      (seen ++ vs.map trimSku).Nodup →
      (∃ v ∈ vs, (findVariantBySku db (trimSku v)).isSome) →
      ∃ m, checkVariants db vs i seen = some (.conflict m)
  | [], _, _, _, _, hconf => by simp at hconf
  | v :: rest, i, seen, hfields, hnodup, hconf => by
    have hv := (fieldValid_iff v).mp (hfields v (by simp))
    have hmid : ((trimSku v :: seen) ++ rest.map trimSku).Nodup := by
      have := List.nodup_middle.mp (by simpa using hnodup)
      simpa using this
    have hnotseen : trimSku v ∉ seen := by
      have := List.nodup_middle.mp (by simpa using hnodup)
      intro hmem
      exact (List.nodup_cons.mp this).1 (by simp [hmem])
    rw [checkVariants]
    rw [if_neg hv.1, if_neg hv.2.1, negGuard_eq, negGuard_eq]
    rw [if_neg (by simpa using hv.2.2.1), if_neg (by simpa using hv.2.2.2)]
    rw [if_neg (by simpa [List.contains_iff_exists_mem_beq] using hnotseen)]
    cases hfv : findVariantBySku db (trimSku v) with
    | some w => exact ⟨_, rfl⟩
    | none =>
      have hrest : ∃ u ∈ rest, (findVariantBySku db (trimSku u)).isSome := by
        rcases hconf with ⟨u, hu, hus⟩
        rcases List.mem_cons.mp hu with h | h
        · rw [h, hfv] at hus; simp at hus
        · exact ⟨u, h, hus⟩
      exact checkVariants_conflict db rest (i + 1) (trimSku v :: seen)
        (fun u hu => hfields u (by simp [hu])) hmid hrest

/-- Under field-valid variants with globally distinct trimmed SKUs none of
which is persisted, the per-variant loop accepts. -/
theorem checkVariants_none (db : DB) :
    ∀ (vs : List VariantReq) (i : Nat) (seen : List String),
      (∀ v ∈ vs, fieldValid v = true) →
      (seen ++ vs.map trimSku).Nodup →
      (∀ v ∈ vs, findVariantBySku db (trimSku v) = none) →
      checkVariants db vs i seen = none
  | [], _, _, _, _, _ => rfl
  | v :: rest, i, seen, hfields, hnodup, hfresh => by
    have hv := (fieldValid_iff v).mp (hfields v (by simp))
    have hmid : ((trimSku v :: seen) ++ rest.map trimSku).Nodup := by
      have := List.nodup_middle.mp (by simpa using hnodup)
      simpa using this
    have hnotseen : trimSku v ∉ seen := by
      have := List.nodup_middle.mp (by simpa using hnodup)
      intro hmem
      exact (List.nodup_cons.mp this).1 (by simp [hmem])
    rw [checkVariants]
    rw [if_neg hv.1, if_neg hv.2.1, negGuard_eq, negGuard_eq]
    rw [if_neg (by simpa using hv.2.2.1), if_neg (by simpa using hv.2.2.2)]
    rw [if_neg (by simpa [List.contains_iff_exists_mem_beq] using hnotseen)]
    rw [hfresh v (by simp)]
    exact checkVariants_none db rest (i + 1) (trimSku v :: seen)
      (fun u hu => hfields u (by simp [hu])) hmid
      (fun u hu => hfresh u (by simp [hu]))

/-- When the shape, status and category checks pass, `validateCreate`
reduces to the per-variant loop. -/
theorem validateCreate_eq_check (req : CreateReq) (db : DB) (vs : List VariantReq)
    (hn : jsTrim (req.name.getD "") ≠ "")
    (hv : req.variants = some vs) (hne : vs ≠ [])
    (hst : validStatuses.contains (req.status.getD "active") = true)
    (hcat : ∀ c, req.category_id = some c → (findCategory db c).isSome = true) :
    validateCreate req db = checkVariants db vs 0 [] := by
  unfold validateCreate
  rw [hv, if_neg hn]
  simp only [List.isEmpty_iff, hne, if_false, hst, not_true, if_false]
  cases hc : req.category_id with
  | none => rfl
  | some c =>
    have := hcat c hc
    simp [Option.isNone_iff_eq_none]
    intro h
    rw [h] at this
    simp at this

/-! ### Concrete fixtures used by witnesses and counterexamples -/

/-- A persisted category. -/
def catFix : Category := ⟨1, "Produce"⟩

/-- A live product owning the two variants below. -/
def prodFix : Product := ⟨1, "Fixture", some "desc", some 1, "active", none, 5, 5⟩

/-- A soft-deleted product (deleted at instant 8). -/
def prodGone : Product := ⟨2, "Ghost", none, none, "active", some 8, 6, 6⟩

/-- Variant with SKU "A" (persisted). -/
def varA : Variant := ⟨1, 1, "A", "Only", 500, 3, 10, 10⟩

/-- Variant with SKU "B" (persisted). -/
def varB : Variant := ⟨2, 1, "B", "Second", 700, 4, 11, 11⟩

/-- The store the witnesses run against. -/
def dbFix : DB := ⟨[catFix], [prodFix, prodGone], [varA, varB], 3, 3⟩

/-! ### Claims -/

/-- Claim C1: for every otherwise-valid create payload containing a variant
whose trimmed SKU is already persisted, `createProduct` answers `Conflict`
and the store is unchanged — in particular the product count is unchanged,
because every check of the create pipeline runs before any insert. -/
theorem claim_C1 (req : CreateReq) (now : Nat) (db : DB) (vs : List VariantReq)
    (hv : req.variants = some vs)
    (hn : jsTrim (req.name.getD "") ≠ "")
    (hne : vs ≠ [])
    (hst : validStatuses.contains (req.status.getD "active") = true)
    (hcat : ∀ c, req.category_id = some c → (findCategory db c).isSome = true)
    (hfields : ∀ v ∈ vs, fieldValid v = true)
    (hnodup : (vs.map trimSku).Nodup)
    (hconf : ∃ v ∈ vs, (findVariantBySku db (trimSku v)).isSome) :
    (∃ m, (createProduct req now db).1 = .error (.conflict m)) ∧
      (createProduct req now db).2 = db ∧
      (createProduct req now db).2.products.length = db.products.length := by
  obtain ⟨m, hc⟩ :=
    checkVariants_conflict db vs 0 [] hfields (by simpa using hnodup) hconf
  have hval : validateCreate req db = some (.conflict m) := by
    rw [validateCreate_eq_check req db vs hn hv hne hst hcat]; exact hc
  refine ⟨⟨m, ?_⟩, ?_, ?_⟩ <;> simp [createProduct, hval]

/-- Witness for C1: a concrete otherwise-valid payload whose variant reuses
the persisted SKU "A" is rejected with `Conflict` and leaves the store intact. -/
theorem claim_C1_witness :
    (∃ m, (createProduct ⟨some "New", none, none, none,
        some [⟨some "A", some "V", none, none⟩]⟩ 20 dbFix).1 = .error (.conflict m)) ∧
      (createProduct ⟨some "New", none, none, none,
        some [⟨some "A", some "V", none, none⟩]⟩ 20 dbFix).2 = dbFix ∧
      (createProduct ⟨some "New", none, none, none,
        some [⟨some "A", some "V", none, none⟩]⟩ 20 dbFix).2.products.length =
        dbFix.products.length :=
  claim_C1 _ 20 dbFix [⟨some "A", some "V", none, none⟩]
    rfl (by decide) (by decide) (by decide)
    (fun c h => by cases h) (by decide) (by decide) (by decide)

/-- Claim C2: every row of `listProducts` has an absent `deleted_at`, for
every combination of caller-supplied filters (the soft-delete predicate is
seeded into the condition list and ANDed with everything else); yet after
`deleteProduct id`, `getProduct id` still succeeds and returns the row with
`deleted_at` set. -/
theorem claim_C2 (search : Option String) (category_id : Option Nat) (db : DB)
    (r : ProductSummary) (hr : r ∈ listProducts search category_id db)
    (id now : Nat) (db2 : DB) (hex : ∃ p ∈ db2.products, p.id = id) :
    r.product.deleted_at = none ∧
      (deleteProduct id now db2).1 = .ok () ∧
      ∃ pd, getProduct id (deleteProduct id now db2).2 = .ok pd ∧
        pd.product.deleted_at = some now := by
  constructor
  · simp only [listProducts, List.mem_map] at hr
    obtain ⟨p, hps, hsum⟩ := hr
    have hp : p ∈ db.products.filter _ := mem_sortByCreatedDesc.mp hps
    have hpred := (List.mem_filter.mp hp).2
    simp only [Bool.and_eq_true, decide_eq_true_eq] at hpred
    have : p.deleted_at.isNone = true := hpred.1.1
    rw [← hsum]
    simpa [summarize, Option.isNone_iff_eq_none] using this
  · obtain ⟨p, hp, hpid⟩ := hex
    have hs : (db2.products.find? (fun p => p.id = id)).isSome :=
      List.find?_isSome.mpr ⟨p, hp, by simp [hpid]⟩
    obtain ⟨p₀, hp₀⟩ := Option.isSome_iff_exists.mp hs
    refine ⟨by simp [deleteProduct, hp₀], ?_⟩
    have hfind := find?_map_if (fun p => p.id) id
      (fun p => { p with deleted_at := some now, updated_at := now })
      (fun _ => rfl) db2.products
    refine ⟨⟨{ p₀ with deleted_at := some now, updated_at := now },
      joinedCategoryName (deleteProduct id now db2).2
        { p₀ with deleted_at := some now, updated_at := now },
      sortByCreatedAsc ((deleteProduct id now db2).2.variants.filter
        (fun v => v.product_id = id))⟩, ?_, rfl⟩
    simp only [deleteProduct, hp₀, getProduct, selectProductDetail]
    rw [hfind, hp₀]
    simp

/-- Witness for C2: in the fixture store the listing only shows the live
product, and after deleting product 1 at instant 9 it is still fetchable by
id with `deleted_at = some 9`. -/
theorem claim_C2_witness :
    (summarize dbFix prodFix).product.deleted_at = none ∧
      (deleteProduct 1 9 dbFix).1 = .ok () ∧
      ∃ pd, getProduct 1 (deleteProduct 1 9 dbFix).2 = .ok pd ∧
        pd.product.deleted_at = some 9 :=
  claim_C2 none none dbFix (summarize dbFix prodFix) (by decide)
    1 9 dbFix ⟨prodFix, by decide, rfl⟩

/-- Removing the unique row with a given id from a list of variants shrinks
the sibling count of its product by exactly one. -/
theorem filter_erase_length (pid id : Nat) (v : Variant) :
    ∀ l : List Variant, v ∈ l → v.product_id = pid →
      (∀ w ∈ l, w.id = id ↔ w = v) → l.Nodup →
      (l.filter (fun a => decide (a.product_id = pid) && !decide (a.id = id))).length + 1 =
        (l.filter (fun w => w.product_id = pid)).length
  | [], hv, _, _, _ => by simp at hv
  | x :: t, hv, hvp, hiff, hnd => by
    by_cases hxv : x = v
    · subst hxv
      have hxid : x.id = id := (hiff x (by simp)).mpr rfl
      have hxt : x ∉ t := (List.nodup_cons.mp hnd).1
      have ht : t.filter (fun a => decide (a.product_id = pid) && !decide (a.id = id)) =
          t.filter (fun w => w.product_id = pid) := by
        apply List.filter_congr
        intro w hw
        have hne : w ≠ x := fun h => hxt (h ▸ hw)
        have : ¬ w.id = id := fun h => hne ((hiff w (by simp [hw])).mp h)
        simp [this]
      simp [List.filter_cons, hxid, ht, hvp]
    · have hxid : ¬ x.id = id := fun h => hxv ((hiff x (by simp)).mp h)
      have hvt : v ∈ t := by
        rcases List.mem_cons.mp hv with h | h
        · exact absurd h.symm hxv
        · exact h
      have ih := filter_erase_length pid id v t hvt hvp
        (fun w hw => hiff w (by simp [hw])) (List.nodup_cons.mp hnd).2
      by_cases hx : x.product_id = pid
      · simp [List.filter_cons, hxid, hx]
        omega
      · simp [List.filter_cons, hxid, hx]
        omega

/-- Claim C3: when a variant's product has exactly one variant, the delete is
refused with an `InvalidInput`-class error and the store is untouched (the
guard runs before the DELETE); with at least two variants the delete succeeds
and the sibling count drops by exactly one — deletion can never empty a
non-empty variant set. -/
theorem claim_C3 (db : DB) (id : Nat) (v : Variant)
    (hfind : db.variants.find? (fun w => w.id = id) = some v)
    (hnodup : (db.variants.map (fun w => w.id)).Nodup) :
    ((db.variants.filter (fun w => w.product_id = v.product_id)).length = 1 →
      (deleteVariant id db).1 =
        .error (.invalidInput "Cannot delete the last variant of a product") ∧
      (deleteVariant id db).2 = db) ∧
    (2 ≤ (db.variants.filter (fun w => w.product_id = v.product_id)).length →
      (deleteVariant id db).1 = .ok () ∧
      ((deleteVariant id db).2.variants.filter
          (fun w => w.product_id = v.product_id)).length =
        (db.variants.filter (fun w => w.product_id = v.product_id)).length - 1) := by
  have hvmem := List.mem_of_find?_eq_some hfind
  have hvid : v.id = id := by simpa using List.find?_some hfind
  have hiff : ∀ w ∈ db.variants, w.id = id ↔ w = v := by
    intro w hw
    constructor
    · intro h
      exact List.inj_on_of_nodup_map hnodup hw hvmem (by rw [h, hvid])
    · intro h; rw [h, hvid]
  constructor
  · intro h1
    constructor <;> simp [deleteVariant, hfind, h1]
  · intro h2
    have hlen := filter_erase_length v.product_id id v db.variants hvmem rfl hiff
      (List.Nodup.of_map _ hnodup)
    constructor
    · simp only [deleteVariant, hfind]
      rw [if_neg (by omega)]
    · simp only [deleteVariant, hfind]
      rw [if_neg (by omega)]
      simp only [List.filter_filter, decide_not]
      omega

/-- Fixture for C3: a store whose only product has a single variant. -/
def dbSolo : DB := ⟨[catFix], [prodFix], [varA], 2, 2⟩

/-- Witness for C3: deleting the sole variant of the single-variant store is
refused and changes nothing; deleting variant 1 in the two-variant store
succeeds and leaves one sibling. -/
theorem claim_C3_witness :
    ((deleteVariant 1 dbSolo).1 =
        .error (.invalidInput "Cannot delete the last variant of a product") ∧
      (deleteVariant 1 dbSolo).2 = dbSolo) ∧
    ((deleteVariant 1 dbFix).1 = .ok () ∧
      ((deleteVariant 1 dbFix).2.variants.filter
          (fun w => w.product_id = varA.product_id)).length =
        (dbFix.variants.filter (fun w => w.product_id = varA.product_id)).length - 1) :=
  ⟨(claim_C3 dbSolo 1 varA (by decide) (by decide)).1 (by decide),
   (claim_C3 dbFix 1 varA (by decide) (by decide)).2 (by decide)⟩

/-- The C4 payload: the SKU at index 0 is already persisted, and indices 1
and 2 repeat a fresh SKU within the request. -/
def reqDupAndConflict : CreateReq :=
  ⟨some "New", none, none, none, some
    [⟨some "A", some "V", none, none⟩,
     ⟨some "B2", some "V", none, none⟩,
     ⟨some "B2", some "V", none, none⟩]⟩

/-- Counterexample to claim C4 as stated: this payload contains both a
repeated trimmed SKU (indices 1 and 2) and a SKU that already exists in the
database (index 0), yet the result is `Conflict`, not the InvalidInput
duplicate-SKU error — the database check at index 0 fires before the
duplicate check at index 2. -/
theorem claim_C4_counterexample :
    ((reqDupAndConflict.variants.getD []).map trimSku = ["A", "B2", "B2"]) ∧
      (findVariantBySku dbFix "A").isSome = true ∧
      (createProduct reqDupAndConflict 20 dbFix).1 =
        .error (.conflict "SKU \"A\" already exists") := by
  refine ⟨by decide, by decide, rfl⟩

/-- When every variant before the duplicate is field-valid, unrepeated and
not persisted, the loop reports the in-request duplicate — whatever comes
after it, persisted or not. -/
theorem checkVariants_dup (db : DB) :
    ∀ (pre : List VariantReq) (v : VariantReq) (rest : List VariantReq)
      (i : Nat) (seen : List String),
      (∀ u ∈ pre, fieldValid u = true ∧ findVariantBySku db (trimSku u) = none ∧
        trimSku u ∉ seen) →
      (pre.map trimSku).Nodup →
      fieldValid v = true →
      (trimSku v ∈ seen ∨ trimSku v ∈ pre.map trimSku) →
      checkVariants db (pre ++ v :: rest) i seen =
        some (.invalidInput ("Duplicate SKU \"" ++ trimSku v ++ "\" within request"))
  | [], v, rest, i, seen, _, _, hv, hdup => by
    have hvf := (fieldValid_iff v).mp hv
    have hseen : trimSku v ∈ seen := by
      rcases hdup with h | h
      · exact h
      · simp at h
    rw [List.nil_append, checkVariants]
    rw [if_neg hvf.1, if_neg hvf.2.1, negGuard_eq, negGuard_eq]
    rw [if_neg (by simpa using hvf.2.2.1), if_neg (by simpa using hvf.2.2.2)]
    rw [if_pos (by simpa [List.contains_iff_exists_mem_beq] using hseen)]
  | u :: pre, v, rest, i, seen, hpre, hnodup, hv, hdup => by
    have huf := (fieldValid_iff u).mp (hpre u (by simp)).1
    have hunotseen : trimSku u ∉ seen := (hpre u (by simp)).2.2
    have hudb := (hpre u (by simp)).2.1
    rw [List.cons_append, checkVariants]
    rw [if_neg huf.1, if_neg huf.2.1, negGuard_eq, negGuard_eq]
    rw [if_neg (by simpa using huf.2.2.1), if_neg (by simpa using huf.2.2.2)]
    rw [if_neg (by simpa [List.contains_iff_exists_mem_beq] using hunotseen)]
    rw [hudb]
    rw [List.map_cons] at hnodup
    have hnd := List.nodup_cons.mp hnodup
    refine checkVariants_dup db pre v rest (i + 1) (trimSku u :: seen) ?_ hnd.2 hv ?_
    · intro w hw
      refine ⟨(hpre w (by simp [hw])).1, (hpre w (by simp [hw])).2.1, ?_⟩
      intro hmem
      rcases List.mem_cons.mp hmem with h | h
      · exact hnd.1 (h ▸ List.mem_map_of_mem trimSku hw)
      · exact (hpre w (by simp [hw])).2.2 h
    · rcases hdup with h | h
      · exact Or.inl (by simp [h])
      · rw [List.map_cons] at h
        rcases List.mem_cons.mp h with h | h
        · exact Or.inl (by simp [h])
        · exact Or.inr h

/-- Claim C4 (amended): the create loop interleaves the two SKU checks per
variant index — the in-batch duplicate check precedes the database check
only within one index.  A repeated trimmed SKU yields the InvalidInput
duplicate error (and leaves the store unchanged) provided every variant
before the repeat is valid, unrepeated and not persisted; a persisted SKU at
an earlier index instead yields `Conflict` (see the counterexample). -/
theorem claim_C4 (db : DB) (now : Nat) (nm : String) (desc : Option String)
    (cid : Option Nat) (st : Option String)
    (pre : List VariantReq) (v : VariantReq) (rest : List VariantReq)
    (hn : jsTrim nm ≠ "")
    (hst : validStatuses.contains (st.getD "active") = true)
    (hcat : ∀ c, cid = some c → (findCategory db c).isSome = true)
    (hpre : ∀ u ∈ pre, fieldValid u = true ∧ findVariantBySku db (trimSku u) = none)
    (hnodup : (pre.map trimSku).Nodup)
    (hv : fieldValid v = true)
    (hdup : trimSku v ∈ pre.map trimSku) :
    (createProduct ⟨some nm, desc, cid, st, some (pre ++ v :: rest)⟩ now db).1 =
      .error (.invalidInput ("Duplicate SKU \"" ++ trimSku v ++ "\" within request")) ∧
    (createProduct ⟨some nm, desc, cid, st, some (pre ++ v :: rest)⟩ now db).2 = db := by
  have hchk := checkVariants_dup db pre v rest 0 []
    (fun u hu => ⟨(hpre u hu).1, (hpre u hu).2, by simp⟩) hnodup hv (Or.inr hdup)
  have hval : validateCreate ⟨some nm, desc, cid, st, some (pre ++ v :: rest)⟩ db =
      some (.invalidInput ("Duplicate SKU \"" ++ trimSku v ++ "\" within request")) := by
    rw [validateCreate_eq_check _ db (pre ++ v :: rest) (by simpa using hn) rfl
      (by simp) hst hcat]
    exact hchk
  constructor <;> simp [createProduct, hval]

/-- Witness for C4 (amended): with persisted SKUs "A" and "B", a payload
whose first variant has fresh SKU "C" and whose second repeats "C" is
rejected with the duplicate-SKU InvalidInput error and changes nothing. -/
theorem claim_C4_witness :
    (createProduct ⟨some "New", none, none, none, some
        ([⟨some "C", some "V", none, none⟩] ++
          ⟨some "C", some "V2", some 1, some 2⟩ :: [])⟩ 20 dbFix).1 =
      .error (.invalidInput ("Duplicate SKU \"" ++
        trimSku ⟨some "C", some "V2", some 1, some 2⟩ ++ "\" within request")) ∧
    (createProduct ⟨some "New", none, none, none, some
        ([⟨some "C", some "V", none, none⟩] ++
          ⟨some "C", some "V2", some 1, some 2⟩ :: [])⟩ 20 dbFix).2 = dbFix :=
  claim_C4 dbFix 20 "New" none none none
    [⟨some "C", some "V", none, none⟩] ⟨some "C", some "V2", some 1, some 2⟩ []
    (by decide) (by decide) (fun c h => by cases h)
    (by decide) (by decide) (by decide) (by decide)

/-- Fixture for C5: a store with no categories at all. -/
def dbNoCat : DB := ⟨[], [prodFix], [varA], 2, 2⟩

/-- Counterexample to claim C5 as stated: the update handler has no category
existence check — updating product 1 with dangling `category_id = 7` (the
store has no categories) succeeds and persists the dangling reference,
instead of failing with InvalidInput. -/
theorem claim_C5_counterexample :
    findCategory dbNoCat 7 = none ∧
      (updateProduct 1 ⟨.undef, .undef, .val 7, .undef⟩ 30 dbNoCat).1 =
        .ok ⟨⟨1, "Fixture", some "desc", some 7, "active", none, 5, 30⟩, none⟩ ∧
      (updateProduct 1 ⟨.undef, .undef, .val 7, .undef⟩ 30 dbNoCat).2.products =
        [⟨1, "Fixture", some "desc", some 7, "active", none, 5, 30⟩] :=
  ⟨rfl, rfl, rfl⟩

/-- Claim C5 (amended): the category-existence guard holds for create only —
a create whose non-null `category_id` resolves to no persisted category
fails with `InvalidInput` and inserts nothing; but update-product performs no
category check, so an update carrying a dangling `category_id` succeeds and
persists it. -/
theorem claim_C5 (req : CreateReq) (now : Nat) (db : DB) (c : Nat)
    (h1 : req.category_id = some c) (h2 : findCategory db c = none)
    (id now2 c2 : Nat) (db2 : DB)
    (h3 : ∃ p ∈ db2.products, p.id = id) :
    ((∃ m, (createProduct req now db).1 = .error (.invalidInput m)) ∧
      (createProduct req now db).2 = db) ∧
    (∃ r, (updateProduct id ⟨.undef, .undef, .val c2, .undef⟩ now2 db2).1 = .ok r ∧
      r.product.category_id = some c2) := by
  have hval : ∃ m, validateCreate req db = some (.invalidInput m) := by
    unfold validateCreate
    by_cases hn : jsTrim (req.name.getD "") = ""
    · exact ⟨_, by rw [if_pos hn]⟩
    · rw [if_neg hn]
      cases hv : req.variants with
      | none => exact ⟨_, rfl⟩
      | some vs =>
        dsimp only
        by_cases he : vs.isEmpty
        · exact ⟨_, by rw [if_pos he]⟩
        · rw [if_neg he]
          by_cases hs : validStatuses.contains (req.status.getD "active") = true
          · rw [if_neg (by simpa using hs)]
            rw [h1]
            dsimp only
            rw [if_pos (by simp [h2])]
            exact ⟨_, rfl⟩
          · rw [if_pos (by simpa using hs)]
            exact ⟨_, rfl⟩
  obtain ⟨m, hm⟩ := hval
  refine ⟨⟨⟨m, by simp [createProduct, hm]⟩, by simp [createProduct, hm]⟩, ?_⟩
  obtain ⟨p, hp, hpid⟩ := h3
  have hs : (db2.products.find? (fun p => p.id = id)).isSome :=
    List.find?_isSome.mpr ⟨p, hp, by simp [hpid]⟩
  obtain ⟨p₀, hp₀⟩ := Option.isSome_iff_exists.mp hs
  have hfind := find?_map_if (fun p => p.id) id
    (fun p => { p with category_id := some c2, updated_at := now2 })
    (fun _ => rfl) db2.products
  simp only [updateProduct, hp₀, jval, Option.getD_none]
  rw [hfind, hp₀]
  exact ⟨_, rfl, rfl⟩

/-- Witness for C5 (amended): a create against the category-less store with
`category_id = 7` is refused leaving the store intact, and the dangling
category update of the counterexample store succeeds. -/
theorem claim_C5_witness :
    ((∃ m, (createProduct ⟨some "New", none, some 7, none,
        some [⟨some "Z", some "V", none, none⟩]⟩ 20 dbNoCat).1 =
          .error (.invalidInput m)) ∧
      (createProduct ⟨some "New", none, some 7, none,
        some [⟨some "Z", some "V", none, none⟩]⟩ 20 dbNoCat).2 = dbNoCat) ∧
    (∃ r, (updateProduct 1 ⟨.undef, .undef, .val 9, .undef⟩ 31 dbNoCat).1 = .ok r ∧
      r.product.category_id = some 9) :=
  claim_C5 ⟨some "New", none, some 7, none, some [⟨some "Z", some "V", none, none⟩]⟩
    20 dbNoCat 7 rfl (by decide) 1 31 9 dbNoCat ⟨prodFix, by decide, rfl⟩

/-- Claim C6: a variant update touches only the supplied columns — updating
just `price_cents` leaves name, sku, product_id and inventory_count at their
prior values, and symmetrically for `inventory_count`; `updated_at` is
refreshed on every successful update. -/
theorem claim_C6 (db : DB) (id now : Nat) (v : Variant) (X Y : Int)
    (hfind : db.variants.find? (fun w => w.id = id) = some v)
    (hX : 0 ≤ X) (hY : 0 ≤ Y) :
    (updateVariant id ⟨.undef, .undef, .val X, .undef⟩ now db).1 =
      .ok { v with price_cents := X, updated_at := now } ∧
    (updateVariant id ⟨.undef, .undef, .undef, .val Y⟩ now db).1 =
      .ok { v with inventory_count := Y, updated_at := now } := by
  constructor
  · have hXf : badNumberField (.val X) = false := by
      simp [badNumberField]; omega
    have hfd := find?_map_if (fun w => w.id) id
      (fun w => { w with price_cents := X, updated_at := now }) (fun _ => rfl) db.variants
    simp only [updateVariant, hfind, hXf, badStringField, badNumberField]
    rw [hfd, hfind]
    simp [not_lt.mpr hX]
  · have hYf : badNumberField (.val Y) = false := by
      simp [badNumberField]; omega
    have hfd := find?_map_if (fun w => w.id) id
      (fun w => { w with inventory_count := Y, updated_at := now }) (fun _ => rfl) db.variants
    simp only [updateVariant, hfind, hYf, badStringField, badNumberField]
    rw [hfd, hfind]
    simp [not_lt.mpr hY]

/-- Witness for C6: updating variant 1's price to 999 returns the row with
only price and timestamp changed; updating its inventory to 42 likewise. -/
theorem claim_C6_witness :
    (updateVariant 1 ⟨.undef, .undef, .val 999, .undef⟩ 40 dbFix).1 =
      .ok { varA with price_cents := 999, updated_at := 40 } ∧
    (updateVariant 1 ⟨.undef, .undef, .undef, .val 42⟩ 40 dbFix).1 =
      .ok { varA with inventory_count := 42, updated_at := 40 } :=
  claim_C6 dbFix 1 40 varA 999 42 (by decide) (by decide) (by decide)

/-- Claim C7: for every valid create payload, the 201 response carries a
variant list of the same length and order as the request, with sku and name
trimmed and price/inventory defaulting to 0 when absent. -/
theorem claim_C7 (req : CreateReq) (now : Nat) (db : DB) (vs : List VariantReq)
    (hv : req.variants = some vs)
    (hn : jsTrim (req.name.getD "") ≠ "")
    (hne : vs ≠ [])
    (hst : validStatuses.contains (req.status.getD "active") = true)
    (hcat : ∀ c, req.category_id = some c → (findCategory db c).isSome = true)
    (hfields : ∀ v ∈ vs, fieldValid v = true)
    (hnodup : (vs.map trimSku).Nodup)
    (hfresh : ∀ v ∈ vs, findVariantBySku db (trimSku v) = none)
    (hpid : ∀ p ∈ db.products, p.id ≠ db.nextProductId)
    (hvpid : ∀ w ∈ db.variants, w.product_id ≠ db.nextProductId) :
    ∃ d, (createProduct req now db).1 = .ok d ∧
      d.variants.length = vs.length ∧
      d.variants.map (fun w => (w.sku, w.name, w.price_cents, w.inventory_count)) =
        vs.map (fun u => (jsTrim (u.sku.getD ""), jsTrim (u.name.getD ""),
          u.price_cents.getD 0, u.inventory_count.getD 0)) := by
  have hchk := checkVariants_none db vs 0 [] hfields (by simpa using hnodup) hfresh
  have hval : validateCreate req db = none := by
    rw [validateCreate_eq_check req db vs hn hv hne hst hcat]
    exact hchk
  have hfindp : (db.products ++
      [({ id := db.nextProductId, name := jsTrim (req.name.getD ""),
          description := req.description, category_id := req.category_id,
          status := req.status.getD "active", deleted_at := none,
          created_at := now, updated_at := now } : Product)]).find?
        (fun p => p.id = db.nextProductId) =
      some ({ id := db.nextProductId, name := jsTrim (req.name.getD ""),
              description := req.description, category_id := req.category_id,
              status := req.status.getD "active", deleted_at := none,
              created_at := now, updated_at := now } : Product) := by
    rw [find?_append_of_none (List.find?_eq_none.mpr ?_)]
    · simp [List.find?]
    · intro x hx
      simpa using hpid x hx
  have hfiltv : ((db.variants ++ mkRows db.nextProductId now vs db.nextVariantId).filter
      (fun w => w.product_id = db.nextProductId)) =
      mkRows db.nextProductId now vs db.nextVariantId := by
    rw [List.filter_append]
    rw [List.filter_eq_nil_iff.mpr (fun a ha => by simpa using hvpid a ha), List.nil_append]
    exact List.filter_eq_self.mpr
      (fun a ha => by simpa using mkRows_product_id db.nextProductId now vs _ a ha)
  have hsort := sortByCreatedAsc_const now (mkRows db.nextProductId now vs db.nextVariantId)
    (mkRows_created_at db.nextProductId now vs _)
  simp only [createProduct, hval, hv, Option.getD_some, insertVariants_spec,
    selectProductDetail]
  rw [hfindp]
  simp only [hfiltv, hsort]
  exact ⟨_, rfl, by rw [mkRows_length], by rw [mkRows_proj]⟩

/-- Witness for C7: a two-variant payload with whitespace around names and
missing price/inventory fields creates a product whose response lists both
variants in order, trimmed, with zero defaults. -/
theorem claim_C7_witness :
    ∃ d, (createProduct ⟨some "  New  ", some "d", some 1, some "draft",
        some [⟨some " X1 ", some " N1 ", some 5, none⟩,
              ⟨some "X2", some "N2", none, some 7⟩]⟩ 20 dbFix).1 = .ok d ∧
      d.variants.length = 2 ∧
      d.variants.map (fun w => (w.sku, w.name, w.price_cents, w.inventory_count)) =
        [("X1", "N1", (5 : Int), (0 : Int)), ("X2", "N2", (0 : Int), (7 : Int))] := by
  obtain ⟨d, h1, h2, h3⟩ := claim_C7 ⟨some "  New  ", some "d", some 1, some "draft",
      some [⟨some " X1 ", some " N1 ", some 5, none⟩, ⟨some "X2", some "N2", none, some 7⟩]⟩
    20 dbFix [⟨some " X1 ", some " N1 ", some 5, none⟩, ⟨some "X2", some "N2", none, some 7⟩]
    rfl (by decide) (by decide) (by decide) (fun c h => by cases h; decide)
    (by decide) (by decide) (by decide) (by decide) (by decide)
  exact ⟨d, h1, h2, by rw [h3]; decide⟩

/-- Claim C8: an update supplying zero recognized fields fails with
InvalidInput ("no fields to update") and leaves the store — including the
variant's `updated_at` — unchanged; and since only supplied fields are
validated, an update supplying only a valid `price_cents` succeeds rather
than being rejected for its unsent name or sku. -/
theorem claim_C8 (db : DB) (id now : Nat) (v : Variant) (X : Int)
    (hfind : db.variants.find? (fun w => w.id = id) = some v)
    (hX : 0 ≤ X) :
    (updateVariant id ⟨.undef, .undef, .undef, .undef⟩ now db).1 =
      .error (.invalidInput "No fields provided to update") ∧
    (updateVariant id ⟨.undef, .undef, .undef, .undef⟩ now db).2 = db ∧
    (updateVariant id ⟨.undef, .undef, .val X, .undef⟩ now db).1 =
      .ok { v with price_cents := X, updated_at := now } := by
  refine ⟨by simp [updateVariant, hfind, badStringField, badNumberField],
    by simp [updateVariant, hfind, badStringField, badNumberField], ?_⟩
  have hXf : badNumberField (.val X) = false := by
    simp [badNumberField]; omega
  have hfd := find?_map_if (fun w => w.id) id
    (fun w => { w with price_cents := X, updated_at := now }) (fun _ => rfl) db.variants
  simp only [updateVariant, hfind, hXf, badStringField, badNumberField]
  rw [hfd, hfind]
  simp [not_lt.mpr hX]

/-- Witness for C8: the empty update on variant 1 is refused leaving the
fixture store untouched, while the price-only update succeeds. -/
theorem claim_C8_witness :
    (updateVariant 1 ⟨.undef, .undef, .undef, .undef⟩ 40 dbFix).1 =
      .error (.invalidInput "No fields provided to update") ∧
    (updateVariant 1 ⟨.undef, .undef, .undef, .undef⟩ 40 dbFix).2 = dbFix ∧
    (updateVariant 1 ⟨.undef, .undef, .val 7, .undef⟩ 40 dbFix).1 =
      .ok { varA with price_cents := 7, updated_at := 40 } :=
  claim_C8 dbFix 1 40 varA 7 (by decide) (by decide)

/-- Claim C9: in update-product an explicit null behaves exactly like an
absent field (`?? null` then COALESCE): requests that agree after the
null-collapse produce identical results, a present description or
category_id can never be cleared back to null, and the all-null update only
refreshes `updated_at`. -/
theorem claim_C9 (db : DB) (id now : Nat) (r1 r2 : UpdateProductReq) (p : Product)
    (h1 : jval r1.name = jval r2.name) (h2 : jval r1.description = jval r2.description)
    (h3 : jval r1.category_id = jval r2.category_id) (h4 : jval r1.status = jval r2.status)
    (hfind : db.products.find? (fun q => q.id = id) = some p) :
    updateProduct id r1 now db = updateProduct id r2 now db ∧
    (∀ r, (updateProduct id r1 now db).1 = .ok r →
      (r.product.description = none → p.description = none) ∧
      (r.product.category_id = none → p.category_id = none)) ∧
    (updateProduct id ⟨.null, .null, .null, .null⟩ now db).2 =
      { db with products := db.products.map (fun q =>
          if q.id = id then { q with updated_at := now } else q) } ∧
    (∃ rr, (updateProduct id ⟨.null, .null, .null, .null⟩ now db).1 = .ok rr ∧
      rr.product = { p with updated_at := now }) := by
  refine ⟨by simp only [updateProduct, h1, h2, h3, h4], ?_, ?_, ?_⟩
  · intro r hr
    have hfd := find?_map_if (fun q => q.id) id
      (fun q => { q with
        name := (jval r1.name).getD q.name
        description := match jval r1.description with
                       | some d => some d
                       | none => q.description
        category_id := match jval r1.category_id with
                       | some c => some c
                       | none => q.category_id
        status := (jval r1.status).getD q.status
        updated_at := now }) (fun _ => rfl) db.products
    simp only [updateProduct, hfind] at hr
    rw [hfd, hfind] at hr
    dsimp only [Option.map] at hr
    have hreq := Except.ok.inj hr
    have hprod : r.product = ({ p with
        name := (jval r1.name).getD p.name
        description := match jval r1.description with
                       | some d => some d
                       | none => p.description
        category_id := match jval r1.category_id with
                       | some c => some c
                       | none => p.category_id
        status := (jval r1.status).getD p.status
        updated_at := now } : Product) := by
      rw [← hreq]
    constructor
    · intro hdesc
      rw [hprod] at hdesc
      simp only at hdesc
      cases hd : jval r1.description with
      | some d => rw [hd] at hdesc; simp at hdesc
      | none => rw [hd] at hdesc; exact hdesc
    · intro hcatid
      rw [hprod] at hcatid
      simp only at hcatid
      cases hd : jval r1.category_id with
      | some c => rw [hd] at hcatid; simp at hcatid
      | none => rw [hd] at hcatid; exact hcatid
  · have hfd := find?_map_if (fun q => q.id) id
      (fun q => { q with updated_at := now }) (fun _ => rfl) db.products
    simp only [updateProduct, hfind, jval, Option.getD_none]
    rw [hfd, hfind]
    rfl
  · have hfd := find?_map_if (fun q => q.id) id
      (fun q => { q with updated_at := now }) (fun _ => rfl) db.products
    simp only [updateProduct, hfind, jval, Option.getD_none]
    rw [hfd, hfind]
    exact ⟨_, rfl, rfl⟩

/-- Witness for C9: on the fixture store, a request with explicit nulls
equals its all-absent counterpart, cannot clear product 1's description or
category, and the all-null update leaves everything but `updated_at`
unchanged. -/
theorem claim_C9_witness :
    updateProduct 1 ⟨.null, .null, .null, .null⟩ 30 dbFix =
      updateProduct 1 ⟨.undef, .undef, .undef, .undef⟩ 30 dbFix ∧
    (∀ r, (updateProduct 1 ⟨.null, .null, .null, .null⟩ 30 dbFix).1 = .ok r →
      (r.product.description = none → prodFix.description = none) ∧
      (r.product.category_id = none → prodFix.category_id = none)) ∧
    (updateProduct 1 ⟨.null, .null, .null, .null⟩ 30 dbFix).2 =
      { dbFix with products := dbFix.products.map (fun q =>
          if q.id = 1 then { q with updated_at := 30 } else q) } ∧
    (∃ rr, (updateProduct 1 ⟨.null, .null, .null, .null⟩ 30 dbFix).1 = .ok rr ∧
      rr.product = { prodFix with updated_at := 30 }) :=
  claim_C9 dbFix 1 30 ⟨.null, .null, .null, .null⟩ ⟨.undef, .undef, .undef, .undef⟩
    prodFix rfl rfl rfl rfl (by decide)

/-- Claim C10: delete-product never answers NotFound for a row that exists,
soft-deleted or not — it overwrites `deleted_at` and `updated_at` with the
current instant, so repeating a delete advances the deletion timestamp. -/
theorem claim_C10 (db : DB) (id now : Nat) (p : Product)
    (hfind : db.products.find? (fun q => q.id = id) = some p) :
    (deleteProduct id now db).1 = .ok () ∧
    (deleteProduct id now db).2.products.find? (fun q => q.id = id) =
      some { p with deleted_at := some now, updated_at := now } := by
  have hfd := find?_map_if (fun q => q.id) id
    (fun q => { q with deleted_at := some now, updated_at := now })
    (fun _ => rfl) db.products
  refine ⟨by simp [deleteProduct, hfind], ?_⟩
  simp only [deleteProduct, hfind]
  rw [hfd, hfind]
  rfl

/-- Witness for C10: product 2 of the fixture store is already soft-deleted
(`deleted_at = some 8`); deleting it again at instant 9 succeeds and
overwrites the timestamp to 9. -/
theorem claim_C10_witness :
    (deleteProduct 2 9 dbFix).1 = .ok () ∧
    (deleteProduct 2 9 dbFix).2.products.find? (fun q => q.id = 2) =
      some { prodGone with deleted_at := some 9, updated_at := 9 } :=
  claim_C10 dbFix 2 9 prodGone (by decide)

end Catalog
